import Mathlib

/-
  Verification of the uproot ROOT-file reader core (rootio.py and the
  XRootD walker) against its specification.

  The Python source is shallowly embedded: byte sources are lists of
  naturals below 256, cursors are records of an index, an origin and a
  reference table, fallible reads return Except values.  Machine
  integers are modelled as Nat or Int with explicit masking where the
  source masks.  Definitions follow src/uproot/rootio.py except where a
  doc comment says they are modelled from the spec because the
  corresponding repository module (uproot.const, uproot.source.cursor,
  uproot.source.compressed, the walker base) is not part of src/.
-/

set_option maxRecDepth 4000

deriving instance DecidableEq for Except

/-! ## Byte sources -/

/-- A random-access byte source: the byte at absolute offset i is the
i-th list element.  Bytes are naturals below 256. -/
abbrev Source := List Nat

/-- Read n bytes starting at absolute offset i.  Any read that touches
a position outside the source fails, as the spec demands for reads past
the source end. -/
def readBytes (s : Source) (i : Int) : Nat → Option (List Nat)
  | 0 => some []
  | n + 1 =>
    if h : 0 ≤ i ∧ i.toNat < s.length then
      match readBytes s (i + 1) n with
      | some bs => some (s.get ⟨i.toNat, h.2⟩ :: bs)
      | none => none
    else none

/-- Big-endian value of a byte list. -/
def beN (bs : List Nat) : Nat := bs.foldl (fun a b => a * 256 + b % 256) 0

/-- Reinterpret a w-bit unsigned value as the signed integer with the
same two-complement bit pattern. -/
def asInt (w : Nat) (v : Nat) : Int :=
  if v < 2 ^ (w - 1) then (v : Int) else (v : Int) - 2 ^ w

/-! ## Constants

Modelled from the spec: the module uproot.const is not under src/; the
spec lists kByteCountMask = 0x40000000, kNewClassTag = 0xFFFFFFFF,
kClassMask = 0x80000000, kMapOffset = 2, and names kByteCountVMask,
kIsOnHeap, kIsReferenced whose ROOT values are 0x4000, 0x01000000 and
0x10. -/

def kByteCountMask : Nat := 0x40000000

def kNewClassTag : Nat := 0xFFFFFFFF

def kClassMask : Nat := 0x80000000

def kMapOffset : Nat := 2

def kByteCountVMask : Nat := 0x4000

def kIsOnHeap : Nat := 0x01000000

def kIsReferenced : Nat := 0x10

/-! ## Objects, classes, contexts, cursors -/

/-- A class descriptor: either the distinguished fallback class
Undefined, or a class identified by its registered name (built-in or
synthesized readers live outside this embedding). -/
inductive ClassDesc where
  | undefinedCls : ClassDesc
  | named : String → ClassDesc
deriving DecidableEq, Repr

/-- A decoded value as stored in a reference table or returned by
ReadObjectAny: an Undefined placeholder (with its optional recorded
class name and its framed version), a class descriptor stored as a
value, or an opaque decoded object. -/
inductive RObject where
  | undef : Option String → Nat → RObject
  | classRef : ClassDesc → RObject
  | other : Nat → RObject
deriving DecidableEq, Repr

/-- Error kinds raised by the embedded readers, mirroring the Python
exception classes used in rootio.py. -/
inductive RErr where
  | ioError : String → RErr
  | valueError : String → RErr
  | notImplementedError : String → RErr
  | keyError : String → RErr
  | typeError : String → RErr
deriving DecidableEq, Repr

/-- The file context fields the embedded readers use: the class
registry (name to class descriptor) and the compression descriptor,
the latter modelled as an opaque code since uproot.source.compressed
is not under src/. -/
structure Context where
  classes : List (String × ClassDesc)
  compression : Nat
deriving DecidableEq, Repr

/-- context.classes.get(cname, Undefined): registry lookup defaulting
to the Undefined class. -/
def Context.getClass (ctx : Context) (n : String) : ClassDesc :=
  match ctx.classes.find? (fun p => p.1 == n) with
  | some p => p.2
  | none => ClassDesc.undefinedCls

/-- Modelled from the spec: uproot.source.cursor.Cursor is not under
src/.  A cursor holds an absolute index, an origin subtracted to form
record-relative positions, and the refs table mapping integer tags to
already-decoded classes and objects. -/
structure Cursor where
  index : Int
  origin : Int
  refs : List (Int × RObject)
deriving DecidableEq, Repr

/-- Assign refs key k to v, dict style: replace an existing binding or
append a new one. -/
def insertRefs : List (Int × RObject) → Int → RObject → List (Int × RObject)
  | [], k, v => [(k, v)]
  | (k', v') :: rest, k, v =>
    if k' = k then (k, v) :: rest else (k', v') :: insertRefs rest k v

def Cursor.refsInsert (c : Cursor) (k : Int) (v : RObject) : Cursor :=
  { c with refs := insertRefs c.refs k v }

/-- refs dict lookup. -/
def Cursor.refsLookup (c : Cursor) (k : Int) : Option RObject :=
  (c.refs.find? (fun p => p.1 = k)).map Prod.snd

/-- len(cursor.refs) as an integer key component. -/
def Cursor.refsLen (c : Cursor) : Int := (c.refs.length : Int)

/-- cursor.skip(n): advance without reading. -/
def Cursor.skip (c : Cursor) (n : Int) : Cursor := { c with index := c.index + n }

/-- Modelled from the spec: cursor.field over a big-endian u32. -/
def Cursor.fieldU32 (s : Source) (c : Cursor) : Except RErr (Nat × Cursor) :=
  match readBytes s c.index 4 with
  | some bs => Except.ok (beN bs, { c with index := c.index + 4 })
  | none => Except.error (RErr.ioError "read past end of source")

/-- Modelled from the spec: cursor.field over a big-endian u16. -/
def Cursor.fieldU16 (s : Source) (c : Cursor) : Except RErr (Nat × Cursor) :=
  match readBytes s c.index 2 with
  | some bs => Except.ok (beN bs, { c with index := c.index + 2 })
  | none => Except.error (RErr.ioError "read past end of source")

/-- Modelled from the spec: cursor.field over a big-endian signed i32. -/
def Cursor.fieldI32 (s : Source) (c : Cursor) : Except RErr (Int × Cursor) :=
  match readBytes s c.index 4 with
  | some bs => Except.ok (asInt 32 (beN bs), { c with index := c.index + 4 })
  | none => Except.error (RErr.ioError "read past end of source")

/-- Modelled from the spec: cursor.field over a big-endian signed i16. -/
def Cursor.fieldI16 (s : Source) (c : Cursor) : Except RErr (Int × Cursor) :=
  match readBytes s c.index 2 with
  | some bs => Except.ok (asInt 16 (beN bs), { c with index := c.index + 2 })
  | none => Except.error (RErr.ioError "read past end of source")

/-- Modelled from the spec: cursor.field over a big-endian signed i64. -/
def Cursor.fieldI64 (s : Source) (c : Cursor) : Except RErr (Int × Cursor) :=
  match readBytes s c.index 8 with
  | some bs => Except.ok (asInt 64 (beN bs), { c with index := c.index + 8 })
  | none => Except.error (RErr.ioError "read past end of source")

/-- Modelled from the spec: cursor.string, the length-prefixed byte
string.  The length is the first byte; 255 escapes to a big-endian u32
length in the next four bytes; then that many content bytes follow. -/
def Cursor.stringRead (s : Source) (c : Cursor) : Except RErr (List Nat × Cursor) :=
  match readBytes s c.index 1 with
  | none => Except.error (RErr.ioError "read past end of source")
  | some pb =>
    let p := beN pb
    if p = 255 then
      match readBytes s (c.index + 1) 4 with
      | none => Except.error (RErr.ioError "read past end of source")
      | some lb =>
        let len := beN lb
        match readBytes s (c.index + 5) len with
        | some d => Except.ok (d, { c with index := c.index + 5 + len })
        | none => Except.error (RErr.ioError "read past end of source")
    else
      match readBytes s (c.index + 1) p with
      | some d => Except.ok (d, { c with index := c.index + 1 + p })
      | none => Except.error (RErr.ioError "read past end of source")

/-- Scan forward from position pos for a NUL terminator; the fuel
argument bounds the scan and is instantiated so that it never runs out
inside the source. -/
def cstrAux (s : Source) : Nat → Nat → Option (List Nat × Nat)
  | 0, _ => none
  | fuel + 1, pos =>
    match s[pos]? with
    | none => none
    | some b =>
      if b = 0 then some ([], pos + 1)
      else
        match cstrAux s fuel (pos + 1) with
        | some (cs, p) => some (b :: cs, p)
        | none => none

/-- Modelled from the spec: cursor.cstring, the NUL-terminated byte
string, returned without its terminator. -/
def Cursor.cstringRead (s : Source) (c : Cursor) : Except RErr (List Nat × Cursor) :=
  if c.index < 0 then Except.error (RErr.ioError "read past end of source")
  else
    match cstrAux s (s.length + 1) c.index.toNat with
    | some (cs, p) => Except.ok (cs, { c with index := (p : Int) })
    | none => Except.error (RErr.ioError "read past end of source")

/-- Split a big-endian byte list into signed 32-bit values. -/
def chunksI32 : List Nat → List Int
  | b0 :: b1 :: b2 :: b3 :: rest => asInt 32 (beN [b0, b1, b2, b3]) :: chunksI32 rest
  | _ => []

/-- Modelled from the spec: cursor.array over n big-endian i32 values. -/
def Cursor.arrayI32 (s : Source) (c : Cursor) (n : Nat) : Except RErr (List Int × Cursor) :=
  match readBytes s c.index (4 * n) with
  | some bs => Except.ok (chunksI32 bs, { c with index := c.index + 4 * n })
  | none => Except.error (RErr.ioError "read past end of source")

/-- Byte list of an ASCII string literal. -/
def bstr (s : String) : List Nat := s.data.map Char.toNat

/-- Decode a byte list as ASCII. -/
def decodeAscii (bs : List Nat) : String := String.mk (bs.map Char.ofNat)

/-! ## Framed-record primitives (rootio.py lines 418-447) -/

/-- rootio._startcheck: read the 32-bit count and 16-bit version and
return the start index, the expected byte count and the version.  The
count is the u32 with the kByteCountMask bit cleared, plus 4; clearing
bit 30 of a 32-bit value is masking with 0xBFFFFFFF. -/
def _startcheck (s : Source) (c : Cursor) : Except RErr (Int × Int × Nat × Cursor) :=
  let start := c.index
  match Cursor.fieldU32 s c with
  | Except.error e => Except.error e
  | Except.ok (cnt, c1) =>
    match Cursor.fieldU16 s c1 with
    | Except.error e => Except.error e
    | Except.ok (vers, c2) =>
      Except.ok (start, ((cnt &&& 0xBFFFFFFF : Nat) : Int) + 4, vers, c2)

/-- rootio._endcheck: the observed consumed size, cursor index minus
start, is compared against the expected count; mismatch raises
ValueError. -/
def _endcheck (start : Int) (c : Cursor) (cnt : Int) : Except RErr Unit :=
  if c.index - start ≠ cnt then Except.error (RErr.valueError "object has wrong number of bytes")
  else Except.ok ()

/-- rootio._skiptobj: skip the streamed TObject header.  The 16-bit
version is tested against kByteCountVMask on its raw bits, which equals
the numpy int64 test in the source; fBits is ORed with kIsOnHeap before
the kIsReferenced test. -/
def _skiptobj (s : Source) (c : Cursor) : Except RErr Cursor :=
  match Cursor.fieldU16 s c with
  | Except.error e => Except.error e
  | Except.ok (version, c1) =>
    let c2 := if version &&& kByteCountVMask ≠ 0 then c1.skip 4 else c1
    match Cursor.fieldU32 s c2 with
    | Except.error e => Except.error e
    | Except.ok (_fUniqueID, c3) =>
      match Cursor.fieldU32 s c3 with
      | Except.error e => Except.error e
      | Except.ok (fBits, c4) =>
        let fBits := fBits ||| kIsOnHeap
        if fBits &&& kIsReferenced ≠ 0 then Except.ok (c4.skip 2) else Except.ok c4

/-- rootio._nametitle: a framed record holding a skipped TObject and
two length-prefixed strings. -/
def _nametitle (s : Source) (c : Cursor) : Except RErr (List Nat × List Nat × Cursor) :=
  match _startcheck s c with
  | Except.error e => Except.error e
  | Except.ok (start, cnt, _vers, c1) =>
    match _skiptobj s c1 with
    | Except.error e => Except.error e
    | Except.ok c2 =>
      match Cursor.stringRead s c2 with
      | Except.error e => Except.error e
      | Except.ok (name, c3) =>
        match Cursor.stringRead s c3 with
        | Except.error e => Except.error e
        | Except.ok (title, c4) =>
          match _endcheck start c4 cnt with
          | Except.error e => Except.error e
          | Except.ok _ => Except.ok (name, title, c4)

/-! ## Undefined (rootio.py lines 1176-1182) -/

/-- Undefined._readinto: a framed record whose payload is skipped
wholesale: after the 6-byte start bracket it skips cnt - 6 bytes, so
the end check is satisfied by construction.  Undefined.read adds no
behaviour (no postprocessing, no context copy), so it is the same
function. -/
def Undefined_readinto (s : Source) (c : Cursor) : Except RErr (RObject × Cursor) :=
  match _startcheck s c with
  | Except.error e => Except.error e
  | Except.ok (start, cnt, vers, c1) =>
    let c2 := c1.skip (cnt - 6)
    match _endcheck start c2 cnt with
    | Except.error e => Except.error e
    | Except.ok _ => Except.ok (RObject.undef none vers, c2)

/-! ## ReadObjectAny (rootio.py lines 449-529) -/

/-- The prologue of _readobjany: read the 32-bit count; if its
kByteCountMask bit is clear or it equals kNewClassTag, the value is a
raw tag (vers 0, start 0, byte count 0); otherwise record the
record-relative start, read the tag as a second u32 and keep the raw
count (vers 1).  Returns (vers, start, tag, bcnt, cursor). -/
def roaHead (s : Source) (c : Cursor) : Except RErr (Nat × Int × Nat × Nat × Cursor) :=
  match Cursor.fieldU32 s c with
  | Except.error e => Except.error e
  | Except.ok (bcnt0, c1) =>
    if bcnt0 &&& kByteCountMask = 0 ∨ bcnt0 = kNewClassTag then
      Except.ok (0, 0, bcnt0, 0, c1)
    else
      match Cursor.fieldU32 s c1 with
      | Except.error e => Except.error e
      | Except.ok (tag, c2) => Except.ok (1, c1.index - c.origin, tag, bcnt0, c2)

/-- Dynamic dispatch on a class descriptor: the Undefined class reads
with Undefined._readinto; readers of named classes (built-in or
synthesized) are abstracted by the readcls parameter. -/
def classRead
    (readcls : String → Source → Cursor → Context → Except RErr (RObject × Cursor))
    (cd : ClassDesc) (s : Source) (c : Cursor) (ctx : Context) :
    Except RErr (RObject × Cursor) :=
  match cd with
  | ClassDesc.undefinedCls => Undefined_readinto s c
  | ClassDesc.named n => readcls n s c ctx

/-- The test fct not in context.classes.values(): a refs value is a
recognized class exactly when it is a class descriptor equal to one of
the registry values; a non-class value never equals a class. -/
def fctRecognized (ctx : Context) : RObject → Bool
  | RObject.classRef cd => (ctx.classes.map Prod.snd).contains cd
  | _ => false

/-- fct.read for a value taken out of the refs table.  The non-class
arm is unreachable in _readobjany because fctRecognized already
rejected such values. -/
def refClassRead
    (readcls : String → Source → Cursor → Context → Except RErr (RObject × Cursor))
    (fctv : RObject) (s : Source) (c : Cursor) (ctx : Context) :
    Except RErr (RObject × Cursor) :=
  match fctv with
  | RObject.classRef cd => classRead readcls cd s c ctx
  | _ => Except.error (RErr.typeError "refs value is not a class")

/-- obj.classname = cname as applied by _readobjany after isinstance
checks that obj is Undefined. -/
def setUndefClassname : RObject → String → RObject
  | RObject.undef _ v, n => RObject.undef (some n) v
  | o, _ => o

/-- rootio._readobjany, the TBufferFile ReadObjectAny decoder: after
the prologue, either an object reference (null, unsupported self
reference, a refs hit, or a jump past the record returning null), a
new class plus new object (class name looked up with Undefined as the
fallback, class and object both registered in refs), or a class
reference plus new object (the referenced descriptor must be a
registry value).  Readers of named classes are abstracted by readcls. -/
def _readobjany
    (readcls : String → Source → Cursor → Context → Except RErr (RObject × Cursor))
    (s : Source) (ctx : Context) (c : Cursor) (wantundefined : Bool) :
    Except RErr (Option RObject × Cursor) :=
  let beg := c.index - c.origin
  match roaHead s c with
  | Except.error e => Except.error e
  | Except.ok (vers, start, tag, bcnt, c1) =>
    if tag &&& kClassMask = 0 then
      if tag = 0 then Except.ok (none, c1)
      else if tag = 1 then
        Except.error (RErr.notImplementedError "tag means self; not implemented yet")
      else
        match c1.refsLookup (tag : Int) with
        | none => Except.ok (none, { c1 with index := c.origin + beg + (bcnt : Int) + 4 })
        | some obj => Except.ok (some obj, c1)
    else if tag = kNewClassTag then
      match Cursor.cstringRead s c1 with
      | Except.error e => Except.error e
      | Except.ok (cnameB, c2) =>
        let cname := decodeAscii cnameB
        let fct := Context.getClass ctx cname
        let c3 := if vers > 0 then c2.refsInsert (start + (kMapOffset : Int)) (RObject.classRef fct)
                  else c2.refsInsert (c2.refsLen + 1) (RObject.classRef fct)
        match (if wantundefined then Undefined_readinto s c3 else classRead readcls fct s c3 ctx) with
        | Except.error e => Except.error e
        | Except.ok (obj0, c4) =>
          let obj := if wantundefined then obj0 else setUndefClassname obj0 cname
          let c5 := if vers > 0 then c4.refsInsert (beg + (kMapOffset : Int)) obj
                    else c4.refsInsert (c4.refsLen + 1) obj
          Except.ok (some obj, c5)
    else
      let ref : Nat := tag &&& 0x7FFFFFFF
      match c1.refsLookup (ref : Int) with
      | none => Except.error (RErr.ioError "invalid class-tag reference")
      | some fctv =>
        if fctRecognized ctx fctv = false then
          Except.error (RErr.ioError "invalid class-tag reference, not a recognized class")
        else
          match (if wantundefined then Undefined_readinto s c1 else refClassRead readcls fctv s c1 ctx) with
          | Except.error e => Except.error e
          | Except.ok (obj, c4) =>
            let c5 := if vers > 0 then c4.refsInsert (beg + (kMapOffset : Int)) obj
                      else c4.refsInsert (c4.refsLen + 1) obj
            Except.ok (some obj, c5)

/-! ## TKey (rootio.py lines 826-855) -/

/-- The payload source a TKey prepares: the raw underlying source, or a
CompressedSource.  Modelled from the spec:
uproot.source.compressed.CompressedSource is not under src/; it is
recorded here as its construction arguments (compression descriptor,
underlying source, cursor at the compressed span, compressed byte
count, uncompressed byte count). -/
inductive PayloadSource where
  | raw : Source → PayloadSource
  | compressedSource : Nat → Source → Cursor → Int → Int → PayloadSource
deriving DecidableEq, Repr

/-- The decoded TKey: header fields, the three strings and the prepared
payload pair. -/
structure TKeyRec where
  fNbytes : Int
  fVersion : Int
  fObjlen : Int
  fDatime : Nat
  fKeylen : Int
  fCycle : Int
  fSeekKey : Int
  fSeekPdir : Int
  fClassName : List Nat
  fName : List Nat
  fTitle : List Nat
  srcPayload : PayloadSource
  curPayload : Cursor
deriving DecidableEq, Repr

/-- TKey._readinto: the fixed header (i32 fNbytes, i16 fVersion, i32
fObjlen, u32 fDatime, i16 fKeylen, i16 fCycle), the seek pair (i32 pair
when fVersion is at most 1000, else i64 pair), three length-prefixed
strings, then the payload preparation: when fObjlen differs from
fNbytes - fKeylen the payload is a CompressedSource over the
fNbytes - fKeylen bytes at fSeekKey + fKeylen with uncompressed length
fObjlen and a cursor at 0 with origin -fKeylen; otherwise the raw
source with a cursor at fSeekKey + fKeylen and origin fSeekKey. -/
def TKey_seeks (s : Source) (fVersion : Int) (c : Cursor) :
    Except RErr (Int × Int × Cursor) :=
  if fVersion ≤ 1000 then
    match Cursor.fieldI32 s c with
    | Except.error e => Except.error e
    | Except.ok (fSeekKey, c7) =>
      match Cursor.fieldI32 s c7 with
      | Except.error e => Except.error e
      | Except.ok (fSeekPdir, c8) => Except.ok (fSeekKey, fSeekPdir, c8)
  else
    match Cursor.fieldI64 s c with
    | Except.error e => Except.error e
    | Except.ok (fSeekKey, c7) =>
      match Cursor.fieldI64 s c7 with
      | Except.error e => Except.error e
      | Except.ok (fSeekPdir, c8) => Except.ok (fSeekKey, fSeekPdir, c8)

def TKey_readinto (s : Source) (ctx : Context) (c : Cursor) :
    Except RErr (TKeyRec × Cursor) :=
  match Cursor.fieldI32 s c with
  | Except.error e => Except.error e
  | Except.ok (fNbytes, c1) =>
  match Cursor.fieldI16 s c1 with
  | Except.error e => Except.error e
  | Except.ok (fVersion, c2) =>
  match Cursor.fieldI32 s c2 with
  | Except.error e => Except.error e
  | Except.ok (fObjlen, c3) =>
  match Cursor.fieldU32 s c3 with
  | Except.error e => Except.error e
  | Except.ok (fDatime, c4) =>
  match Cursor.fieldI16 s c4 with
  | Except.error e => Except.error e
  | Except.ok (fKeylen, c5) =>
  match Cursor.fieldI16 s c5 with
  | Except.error e => Except.error e
  | Except.ok (fCycle, c6) =>
  match TKey_seeks s fVersion c6 with
  | Except.error e => Except.error e
  | Except.ok (fSeekKey, fSeekPdir, c8) =>
  match Cursor.stringRead s c8 with
  | Except.error e => Except.error e
  | Except.ok (fClassName, c9) =>
  match Cursor.stringRead s c9 with
  | Except.error e => Except.error e
  | Except.ok (fName, c10) =>
  match Cursor.stringRead s c10 with
  | Except.error e => Except.error e
  | Except.ok (fTitle, c11) =>
    let payload :=
      if fObjlen ≠ fNbytes - fKeylen then
        (PayloadSource.compressedSource ctx.compression s
           (Cursor.mk (fSeekKey + fKeylen) 0 []) (fNbytes - fKeylen) fObjlen,
         Cursor.mk 0 (-fKeylen) [])
      else
        (PayloadSource.raw s, Cursor.mk (fSeekKey + fKeylen) fSeekKey [])
    Except.ok
      ({ fNbytes := fNbytes, fVersion := fVersion, fObjlen := fObjlen,
         fDatime := fDatime, fKeylen := fKeylen, fCycle := fCycle,
         fSeekKey := fSeekKey, fSeekPdir := fSeekPdir,
         fClassName := fClassName, fName := fName, fTitle := fTitle,
         srcPayload := payload.1, curPayload := payload.2 }, c11)

/-! ## TStreamerElement (rootio.py lines 896-935) -/

/-- The part of a TStreamerElement decode up to and including the
fTypeName string, before the Bool remap, the version dependent tail and
the end check. -/
structure TSERaw where
  start : Int
  cnt : Int
  version : Nat
  fName : List Nat
  fTitle : List Nat
  fType : Int
  fSize : Int
  fArrayLength : Int
  fArrayDim : Int
  fMaxIndex : List Int
  fTypeName : List Nat
deriving DecidableEq, Repr

/-- The decoded TStreamerElement.  The three version-3 floating point
fields are kept as raw 64-bit big-endian patterns, defaulting to 0; no
arithmetic is performed on them. -/
structure TStreamerElem where
  version : Nat
  fOffset : Int
  fName : List Nat
  fTitle : List Nat
  fType : Int
  fSize : Int
  fArrayLength : Int
  fArrayDim : Int
  fMaxIndex : List Int
  fTypeName : List Nat
  fXmin : Nat
  fXmax : Nat
  fFactor : Nat
deriving DecidableEq, Repr

/-- The front of TStreamerElement._readinto: start bracket, name and
title, the four i32 fields, fMaxIndex (a counted i32 array when the
framed version is 1, a fixed 5-element array otherwise; a negative
count is an error) and the fTypeName string. -/
def TSE_maxindex (s : Source) (version : Nat) (c : Cursor) :
    Except RErr (List Int × Cursor) :=
  if version = 1 then
    match Cursor.fieldI32 s c with
    | Except.error e => Except.error e
    | Except.ok (n, c7) =>
      if n < 0 then Except.error (RErr.valueError "negative array count")
      else Cursor.arrayI32 s c7 n.toNat
  else Cursor.arrayI32 s c 5

def TStreamerElement_core (s : Source) (c : Cursor) : Except RErr (TSERaw × Cursor) :=
  match _startcheck s c with
  | Except.error e => Except.error e
  | Except.ok (start, cnt, version, c1) =>
  match _nametitle s c1 with
  | Except.error e => Except.error e
  | Except.ok (fName, fTitle, c2) =>
  match Cursor.fieldI32 s c2 with
  | Except.error e => Except.error e
  | Except.ok (fType, c3) =>
  match Cursor.fieldI32 s c3 with
  | Except.error e => Except.error e
  | Except.ok (fSize, c4) =>
  match Cursor.fieldI32 s c4 with
  | Except.error e => Except.error e
  | Except.ok (fArrayLength, c5) =>
  match Cursor.fieldI32 s c5 with
  | Except.error e => Except.error e
  | Except.ok (fArrayDim, c6) =>
  match TSE_maxindex s version c6 with
  | Except.error e => Except.error e
  | Except.ok (fMaxIndex, c8) =>
  match Cursor.stringRead s c8 with
  | Except.error e => Except.error e
  | Except.ok (fTypeName, c9) =>
    Except.ok ({ start := start, cnt := cnt, version := version,
                 fName := fName, fTitle := fTitle, fType := fType,
                 fSize := fSize, fArrayLength := fArrayLength,
                 fArrayDim := fArrayDim, fMaxIndex := fMaxIndex,
                 fTypeName := fTypeName }, c9)

/-- The fType remap on line 914-915 of rootio.py: fType 11 with type
name Bool_t or bool becomes fType 18. -/
def bool11remap (fType : Int) (fTypeName : List Nat) : Int :=
  if fType = 11 ∧ (fTypeName = bstr "Bool_t" ∨ fTypeName = bstr "bool") then 18 else fType

/-- TStreamerElement._readinto: the core decode, the Bool remap, the
version-3 tail of three f64 values (raw patterns), and the end check.
The version at most 2 and the version above 3 branches of the source
are inert. -/
def TSE_xtail (s : Source) (version : Nat) (c : Cursor) :
    Except RErr (Nat × Nat × Nat × Cursor) :=
  if version = 3 then
    match readBytes s c.index 24 with
    | some bs =>
      Except.ok (beN (bs.take 8), beN ((bs.drop 8).take 8), beN (bs.drop 16),
                 { c with index := c.index + 24 })
    | none => Except.error (RErr.ioError "read past end of source")
  else Except.ok (0, 0, 0, c)

def TStreamerElement_readinto (s : Source) (c : Cursor) :
    Except RErr (TStreamerElem × Cursor) :=
  match TStreamerElement_core s c with
  | Except.error e => Except.error e
  | Except.ok (r, c1) =>
    let fType := bool11remap r.fType r.fTypeName
    match TSE_xtail s r.version c1 with
    | Except.error e => Except.error e
    | Except.ok (fXmin, fXmax, fFactor, c2) =>
      match _endcheck r.start c2 r.cnt with
      | Except.error e => Except.error e
      | Except.ok _ =>
        Except.ok ({ version := r.version, fOffset := 0, fName := r.fName,
                     fTitle := r.fTitle, fType := fType, fSize := r.fSize,
                     fArrayLength := r.fArrayLength, fArrayDim := r.fArrayDim,
                     fMaxIndex := r.fMaxIndex, fTypeName := r.fTypeName,
                     fXmin := fXmin, fXmax := fXmax, fFactor := fFactor }, c2)

/-! ## Dependency sorter (rootio.py lines 552-572) -/

/-- The part of a TStreamerInfo that topological_sort uses: its class
name. -/
structure TSInfo where
  fName : List Nat
deriving DecidableEq, Repr

/-- The seed of provided names on line 554 of rootio.py. -/
def providedInit : List (List Nat) :=
  [bstr "TObject", bstr "TNamed", bstr "TString", bstr "TList", bstr "TObjArray",
   bstr "TObjString", bstr "TArrayC", bstr "TArrayS", bstr "TArrayI", bstr "TArrayL",
   bstr "TArrayL64", bstr "TArrayF", bstr "TArrayD"]

/-- dependencies.issubset(provided). -/
def subsetOf (deps provided : List (List Nat)) : Bool :=
  deps.all (fun d => provided.contains d)

/-- One full pass of the while loop in topological_sort: emit in order
every item whose dependencies are a subset of the provided set, adding
its name to the provided set as it is emitted; keep the rest in order.
Returns (emitted with their dependency sets, provided after the pass,
remaining items). -/
def topoPass (provided : List (List Nat)) :
    List (TSInfo × List (List Nat)) →
    List (TSInfo × List (List Nat)) × List (List Nat) × List (TSInfo × List (List Nat))
  | [] => ([], provided, [])
  | (item, deps) :: rest =>
    if subsetOf deps provided then
      let r := topoPass (item.fName :: provided) rest
      ((item, deps) :: r.1, r.2.1, r.2.2)
    else
      let r := topoPass provided rest
      (r.1, r.2.1, (item, deps) :: r.2.2)

/-- The iterated passes of topological_sort.  The fuel argument bounds
the number of passes; a pass that makes progress emits at least one
item, so a fuel of the item count is enough and the fuel-exhausted arm,
which repeats the no-progress diagnostic, is unreachable from
topological_sort.  On no progress the error carries what the source
formats into the ValueError message: each remaining streamer name with
its dependency set. -/
def topoSortN (fuel : Nat) (provided : List (List Nat))
    (items : List (TSInfo × List (List Nat))) :
    Except (List (List Nat × List (List Nat))) (List (TSInfo × List (List Nat))) :=
  if items.isEmpty then Except.ok []
  else
    match fuel with
    | 0 => Except.error (items.map (fun x => (x.1.fName, x.2)))
    | n + 1 =>
      let res := topoPass provided items
      if res.1.isEmpty then Except.error (items.map (fun x => (x.1.fName, x.2)))
      else
        match topoSortN n res.2.1 res.2.2 with
        | Except.ok rest => Except.ok (res.1 ++ rest)
        | Except.error e => Except.error e

/-- topological_sort as called by _readstreamers: iterate passes from
the seed set and yield the emitted streamers in order. -/
def topological_sort (items : List (TSInfo × List (List Nat))) :
    Except (List (List Nat × List (List Nat))) (List TSInfo) :=
  (topoSortN items.length providedInit items).map (List.map Prod.fst)

/-- An emission order is dependency sound: every emitted streamer has
its dependency set inside the provided set at that point, after which
its name joins the provided set. -/
def chainOK (provided : List (List Nat)) : List (TSInfo × List (List Nat)) → Prop
  | [] => True
  | (item, deps) :: rest =>
    (∀ d ∈ deps, d ∈ provided) ∧ chainOK (item.fName :: provided) rest

/-! ## The XRootD walker readstring (xrootdwalker.py lines 103-122) -/

/-- The pyxrootd file read: length bytes at the given offset; a read
that leaves the file is modelled as failing. -/
def xread (file : List Nat) (offset : Nat) (length : Nat) : Option (List Nat) :=
  if offset + length ≤ file.length then some ((file.drop offset).take length) else none

/-- XRootDWalker.readstring with no explicit index or length: read the
prefix byte at the current index and advance; on prefix 255 read a
big-endian u32 length and advance; then, as the source is written,
advance the index by the length first and only then issue the content
read at the advanced index.  Returns the data and the final index. -/
def XRootDWalker_readstring (file : List Nat) (index : Nat) : Option (List Nat × Nat) :=
  match xread file index 1 with
  | none => none
  | some d =>
    let length := beN d
    let index := index + 1
    match (if length = 255 then
             match xread file index 4 with
             | none => none
             | some d4 => some (beN d4, index + 4)
           else some (length, index)) with
    | none => none
    | some (length, index) =>
      let index := index + length
      match xread file index length with
      | none => none
      | some data => some (data, index)

/-! ## Directory lookup and iteration (rootio.py lines 259-396)

The directory tree is modelled as a value tree: a ROOTDirectory is its
ordered key list, each key carrying fName, fCycle, fClassName and the
value its get() produces, which is itself a directory for keys of class
TDirectory.  The lazy byte-level extraction behind key.get() is
abstracted to the stored value; the lookup and iteration logic under
verification is translated from the source. -/

/-- A directory value: a leaf object (opaque), or a directory given as
its key chain.  dcons fields are fName, fCycle, fClassName, the value
of the key, and the remaining keys. -/
inductive RVal where
  | leafV : Nat → RVal
  | dnil : RVal
  | dcons : List Nat → Int → List Nat → RVal → RVal → RVal
deriving DecidableEq, Repr

/-- The key list of a directory value as (fName, fCycle, fClassName,
value) tuples. -/
def dirToList : RVal → List (List Nat × Int × List Nat × RVal)
  | RVal.dcons nm cy cls v rest => (nm, cy, cls, v) :: dirToList rest
  | _ => []

/-- Decimal digit expansion of a natural; the fuel argument only bounds
the recursion and n itself is always enough. -/
def natDecAux : Nat → Nat → List Nat
  | 0, n => [48 + n % 10]
  | fuel + 1, n => if n < 10 then [48 + n] else natDecAux fuel (n / 10) ++ [48 + n % 10]

/-- ASCII decimal digits of a natural. -/
def natDecimal (n : Nat) : List Nat := natDecAux n n

/-- ASCII decimal form of an integer, as Python str of an int. -/
def intDecimal (i : Int) : List Nat :=
  if i < 0 then 45 :: natDecimal i.natAbs else natDecimal i.toNat

/-- ROOTDirectory._withcycle: the key name, a semicolon and the decimal
cycle. -/
def withcycle (nm : List Nat) (cy : Int) : List Nat := nm ++ 59 :: intDecimal cy

/-- Value of an ASCII digit run. -/
def digitsVal (bs : List Nat) : Nat := bs.foldl (fun a d => a * 10 + (d - 48)) 0

/-- Parse a nonempty all-digit byte run as a natural. -/
def parseNatDigits (bs : List Nat) : Option Nat :=
  if bs ≠ [] ∧ bs.all (fun d => 48 ≤ d ∧ d ≤ 57) then some (digitsVal bs) else none

/-- The Python int() conversion restricted to an optional minus sign
followed by decimal digits, which covers every string the directory
lookup builds. -/
def pyInt : List Nat → Option Int
  | [] => none
  | b :: rest =>
    if b = 45 then
      match parseNatDigits rest with
      | some n => some (-(n : Int))
      | none => none
    else
      match parseNatDigits (b :: rest) with
      | some n => some ((n : Int))
      | none => none

/-- Index of the last occurrence of sep, as bytes.rindex. -/
def rindexAux (sep : Nat) : List Nat → Option Nat
  | [] => none
  | b :: rest =>
    match rindexAux sep rest with
    | some j => some (j + 1)
    | none => if b = sep then some 0 else none

/-- Python bytes.split on a one-byte separator. -/
def splitOnByte (sep : Nat) : List Nat → List (List Nat)
  | [] => [[]]
  | b :: rest =>
    let r := splitOnByte sep rest
    if b = sep then [] :: r
    else
      match r with
      | [] => [[b]]
      | g :: gs => (b :: g) :: gs

/-- The key scan of ROOTDirectory.get: iterate keys in insertion order
and return the value of the first whose fName equals the name and whose
fCycle matches (any cycle when none was requested); else KeyError. -/
def rscan (name : List Nat) (cycle : Option Int) : RVal → Except RErr RVal
  | RVal.dcons nm cy _cls v rest =>
    if nm = name ∧ (cycle = none ∨ cycle = some cy) then Except.ok v
    else rscan name cycle rest
  | _ => Except.error (RErr.keyError "not found")

/-- The slash-free arm of ROOTDirectory.get: when no cycle was given
and the name holds a semicolon, split at the last semicolon and parse
the suffix as the cycle (int() failure is a ValueError); then scan the
keys.  Getting on a non-directory fails as Python would. -/
def rget1 (v : RVal) (name0 : List Nat) (cycle0 : Option Int) : Except RErr RVal :=
  match v with
  | RVal.leafV _ => Except.error (RErr.typeError "value is not a directory")
  | d =>
    if cycle0 = none then
      match rindexAux 59 name0 with
      | some pos =>
        match pyInt (name0.drop (pos + 1)) with
        | some cy => rscan (name0.take pos) (some cy) d
        | none => Except.error (RErr.valueError "invalid literal for int")
      | none => rscan name0 cycle0 d
    else rscan name0 cycle0 d

/-- ROOTDirectory.get: a name holding a slash is split on slashes and
the components are looked up left to right, each with the same cycle
argument; the components hold no slash, so the recursive calls of the
source are the slash-free arm. -/
def rget (v : RVal) (name : List Nat) (cycle : Option Int) : Except RErr RVal :=
  if 47 ∈ name then
    (splitOnByte 47 name).foldlM (fun out n => rget1 out n cycle) v
  else rget1 v name cycle

/-- ROOTDirectory.keys on a directory value: yield each key passing
both filters as its name-cycle form, and recurse (when asked) into
every key of class TDirectory, joining paths with a slash.  The
filters do not guard the recursion. -/
def dirKeys (rec : Bool) (fn fc : List Nat → Bool) : RVal → List (List Nat)
  | RVal.dcons nm cy cls v rest =>
    (if fn nm && fc cls then [withcycle nm cy] else [])
    ++ (if rec && (cls = bstr "TDirectory" : Bool) then
          (dirKeys rec fn fc v).map (fun n => withcycle nm cy ++ 47 :: n)
        else [])
    ++ dirKeys rec fn fc rest
  | _ => []

/-- ROOTDirectory.values on a directory value, same shape as dirKeys. -/
def dirValues (rec : Bool) (fn fc : List Nat → Bool) : RVal → List RVal
  | RVal.dcons nm _cy cls v rest =>
    (if fn nm && fc cls then [v] else [])
    ++ (if rec && (cls = bstr "TDirectory" : Bool) then dirValues rec fn fc v else [])
    ++ dirValues rec fn fc rest
  | _ => []

/-- ROOTDirectory.items on a directory value, same shape as dirKeys. -/
def dirItems (rec : Bool) (fn fc : List Nat → Bool) : RVal → List (List Nat × RVal)
  | RVal.dcons nm cy cls v rest =>
    (if fn nm && fc cls then [(withcycle nm cy, v)] else [])
    ++ (if rec && (cls = bstr "TDirectory" : Bool) then
          (dirItems rec fn fc v).map (fun p => (withcycle nm cy ++ 47 :: p.1, p.2))
        else [])
    ++ dirItems rec fn fc rest
  | _ => []

/-- ROOTDirectory.classes on a directory value, same shape as dirKeys. -/
def dirClasses (rec : Bool) (fn fc : List Nat → Bool) : RVal → List (List Nat × List Nat)
  | RVal.dcons nm cy cls v rest =>
    (if fn nm && fc cls then [(withcycle nm cy, cls)] else [])
    ++ (if rec && (cls = bstr "TDirectory" : Bool) then
          (dirClasses rec fn fc v).map (fun p => (withcycle nm cy ++ 47 :: p.1, p.2))
        else [])
    ++ dirClasses rec fn fc rest
  | _ => []

/-! ## Helper lemmas -/

theorem refsInsert_index (c : Cursor) (k : Int) (v : RObject) :
    (c.refsInsert k v).index = c.index := rfl

theorem readBytes_length (s : Source) (i : Int) (n : Nat) (l : List Nat) :
    readBytes s i n = some l → l.length = n := by
  induction n generalizing i l with
  | zero =>
    intro h
    unfold readBytes at h
    cases h
    rfl
  | succ n ih =>
    intro h
    unfold readBytes at h
    split at h
    · split at h
      · cases h
        simp [ih _ _ (by assumption)]
      · cases h
    · cases h

theorem readBytes_split (s : Source) (i : Int) (m n : Nat) (l : List Nat) :
    readBytes s i (m + n) = some l →
    readBytes s i m = some (l.take m) ∧ readBytes s (i + (m : Int)) n = some (l.drop m) := by
  induction m generalizing i l with
  | zero =>
    intro h
    have : (0 : Nat) + n = n := by omega
    rw [this] at h
    simpa [readBytes] using h
  | succ m ih =>
    intro h
    have harith : (m + 1) + n = (m + n) + 1 := by omega
    rw [harith] at h
    unfold readBytes at h
    split at h
    · rename_i hb
      revert h
      split
      · rename_i bs hbs
        intro h
        cases h
        have := ih (i + 1) bs hbs
        constructor
        · unfold readBytes
          rw [dif_pos hb]
          rw [this.1]
          simp
        · have harith2 : i + ((m + 1 : Nat) : Int) = (i + 1) + (m : Int) := by push_cast; ring
          rw [harith2]
          simpa using this.2
      · intro h; cases h
    · cases h

/-! ## Claim C7: the walker readstring -/

/-- C7, showing the divergence: the walker readstring, applied at index
0 to a file whose bytes are 03 41 42 43 44 45 46, returns the bytes 44
45 46 found after the advanced index, not the bytes 41 42 43 standing
immediately after the prefix byte as the claim and the spec state. -/
theorem xrootd_readstring_bug :
    XRootDWalker_readstring [0x03, 0x41, 0x42, 0x43, 0x44, 0x45, 0x46] 0 =
      some ([0x44, 0x45, 0x46], 4)
    ∧ ([0x44, 0x45, 0x46] : List Nat) ≠ [0x41, 0x42, 0x43] := by decide

/-! ## Claim C2: the framed-record bracket -/

/-- C2, counterexample: the expected byte count _startcheck returns is
not the low 31 bits of the 32-bit count plus 4.  On the count word
0x80000000 the source clears only the kByteCountMask bit 0x40000000 and
returns 0x80000004, while the low 31 bits plus 4 give 4. -/
theorem startcheck_lowbits_cex :
    _startcheck [0x80, 0, 0, 0, 0, 5] (Cursor.mk 0 0 []) =
      Except.ok (0, 0x80000004, 5, Cursor.mk 6 0 [])
    ∧ ((0x80000000 &&& 0x7FFFFFFF : Nat) : Int) + 4 = 4
    ∧ (0x80000004 : Int) ≠ 4 := by decide

/-- Evaluation of _startcheck on any readable position: it succeeds
with the entry index, the count with bit 0x40000000 cleared plus 4, the
version, and the cursor advanced by 6. -/
theorem startcheck_eval (s : Source) (c : Cursor) (r4 r2 : List Nat)
    (h4 : readBytes s c.index 4 = some r4)
    (h2 : readBytes s (c.index + 4) 2 = some r2) :
    _startcheck s c =
      Except.ok (c.index, ((beN r4 &&& 0xBFFFFFFF : Nat) : Int) + 4, beN r2,
        { c with index := c.index + 6 }) := by
  unfold _startcheck Cursor.fieldU32 Cursor.fieldU16
  rw [h4]
  simp only []
  rw [h2]
  simp only [Except.ok.injEq, Prod.mk.injEq, true_and]
  have h6 : c.index + 4 + 2 = c.index + 6 := by ring
  rw [h6]

/-- _endcheck succeeds exactly when the cursor index is start plus the
expected count. -/
theorem endcheck_ok_iff (start : Int) (c : Cursor) (cnt : Int) :
    _endcheck start c cnt = Except.ok () ↔ c.index = start + cnt := by
  unfold _endcheck
  constructor
  · intro h
    split at h
    · cases h
    · omega
  · intro h
    rw [if_neg (by omega)]

/-- _endcheck on any other consumed size raises ValueError. -/
theorem endcheck_err (start : Int) (c : Cursor) (cnt : Int)
    (h : c.index ≠ start + cnt) :
    _endcheck start c cnt = Except.error (RErr.valueError "object has wrong number of bytes") := by
  unfold _endcheck
  rw [if_pos (by omega)]

/-- C2 as amended: _startcheck at start index S returns the expected
byte count C equal to the 32-bit count with the kByteCountMask bit
0x40000000 cleared, plus 4; and _endcheck succeeds exactly when the
cursor index there equals S + C, any other consumed size raising a
fatal ValueError. -/
theorem startcheck_endcheck_framing :
    (∀ (s : Source) (c : Cursor) (r4 r2 : List Nat),
        readBytes s c.index 4 = some r4 →
        readBytes s (c.index + 4) 2 = some r2 →
        _startcheck s c =
          Except.ok (c.index, ((beN r4 &&& 0xBFFFFFFF : Nat) : Int) + 4, beN r2,
            { c with index := c.index + 6 }))
    ∧ (∀ (start : Int) (c : Cursor) (cnt : Int),
        (_endcheck start c cnt = Except.ok () ↔ c.index = start + cnt)
        ∧ (c.index ≠ start + cnt →
            _endcheck start c cnt =
              Except.error (RErr.valueError "object has wrong number of bytes"))) :=
  ⟨startcheck_eval, fun start c cnt => ⟨endcheck_ok_iff start c cnt, endcheck_err start c cnt⟩⟩

/-- Witness for the amended C2 on concrete bytes: a framed record whose
count word is 0x4000000A (payload 10) and version 3; the expected count
is 14 and the end check accepts exactly the cursor landing at 14. -/
theorem startcheck_endcheck_framing_w :
    _startcheck [0x40, 0, 0, 10, 0, 3] (Cursor.mk 0 0 []) =
      Except.ok (0, 14, 3, Cursor.mk 6 0 [])
    ∧ (_endcheck 0 (Cursor.mk 14 0 []) 14 = Except.ok () ↔ (14 : Int) = 0 + 14)
    ∧ _endcheck 0 (Cursor.mk 13 0 []) 14 =
        Except.error (RErr.valueError "object has wrong number of bytes") :=
  ⟨startcheck_endcheck_framing.1 [0x40, 0, 0, 10, 0, 3] (Cursor.mk 0 0 [])
     [0x40, 0, 0, 10] [0, 3] (by decide) (by decide),
   (startcheck_endcheck_framing.2 0 (Cursor.mk 14 0 []) 14).1,
   (startcheck_endcheck_framing.2 0 (Cursor.mk 13 0 []) 14).2 (by decide)⟩

/-- A reader oracle for named classes used by concrete instances; the
claims exercised here never reach it. -/
def readclsNone : String → Source → Cursor → Context → Except RErr (RObject × Cursor) :=
  fun _ _ _ _ => Except.error (RErr.notImplementedError "no reader")

/-- A small concrete context: one registered class. -/
def ctx0 : Context := { classes := [("TList", ClassDesc.named "TList")], compression := 0 }

/-! ## Claim C1: unresolved object reference is null -/

/-- C1: in ReadObjectAny, when the 32-bit tag has the kClassMask bit
clear, is nonzero, is not 1 and is not a refs key, the cursor index is
set to origin + beg + bcnt + 4 and the call returns null with no
error. -/
theorem readobjany_unresolved_ref_null
    (readcls : String → Source → Cursor → Context → Except RErr (RObject × Cursor))
    (s : Source) (ctx : Context) (c : Cursor) (w : Bool)
    (vers : Nat) (start : Int) (tag bcnt : Nat) (c1 : Cursor)
    (hhead : roaHead s c = Except.ok (vers, start, tag, bcnt, c1))
    (hmask : tag &&& kClassMask = 0) (h0 : tag ≠ 0) (h1 : tag ≠ 1)
    (href : c1.refsLookup (tag : Int) = none) :
    _readobjany readcls s ctx c w =
      Except.ok (none, { c1 with index := c.origin + (c.index - c.origin) + (bcnt : Int) + 4 }) := by
  unfold _readobjany
  rw [hhead]
  simp [hmask, h0, h1, href]

/-- Witness for C1: the raw tag word 5 (so the count arm enters raw-tag
mode) against an empty refs table lands the cursor just past the count
word at index 4 and yields null. -/
theorem readobjany_unresolved_ref_null_w :
    _readobjany readclsNone [0, 0, 0, 5] ctx0 (Cursor.mk 0 0 []) false =
      Except.ok (none, Cursor.mk 4 0 []) :=
  readobjany_unresolved_ref_null readclsNone [0, 0, 0, 5] ctx0 (Cursor.mk 0 0 []) false
    0 0 5 0 (Cursor.mk 4 0 []) (by decide) (by decide) (by decide) (by decide) (by decide)

/-! ## Claim C10: class reference to an unrecognized descriptor is fatal -/

/-- C10: in the class-reference arm of ReadObjectAny, even when the
masked reference tag is a refs key, the call raises IOError unless the
referenced descriptor is a value of the class registry of the
context. -/
theorem readobjany_classref_unrecognized
    (readcls : String → Source → Cursor → Context → Except RErr (RObject × Cursor))
    (s : Source) (ctx : Context) (c : Cursor) (w : Bool)
    (vers : Nat) (start : Int) (tag bcnt : Nat) (c1 : Cursor) (fctv : RObject)
    (hhead : roaHead s c = Except.ok (vers, start, tag, bcnt, c1))
    (hmask : tag &&& kClassMask ≠ 0) (hnew : tag ≠ kNewClassTag)
    (href : c1.refsLookup ((tag &&& 0x7FFFFFFF : Nat) : Int) = some fctv)
    (hrec : fctRecognized ctx fctv = false) :
    _readobjany readcls s ctx c w =
      Except.error (RErr.ioError "invalid class-tag reference, not a recognized class") := by
  unfold _readobjany
  rw [hhead]
  simp [hmask, hnew, href, hrec]

/-- Witness for C10, the Undefined-fallback case in particular: a refs
table whose key 5 holds the Undefined class, registered earlier by a
new-class tag with an unknown name, is not a registry value, so the
class-reference tag 0x80000005 is fatal rather than decoded. -/
theorem readobjany_classref_unrecognized_w :
    _readobjany readclsNone [0x80, 0, 0, 5] ctx0
        (Cursor.mk 0 0 [(5, RObject.classRef ClassDesc.undefinedCls)]) false =
      Except.error (RErr.ioError "invalid class-tag reference, not a recognized class") :=
  readobjany_classref_unrecognized readclsNone [0x80, 0, 0, 5] ctx0
    (Cursor.mk 0 0 [(5, RObject.classRef ClassDesc.undefinedCls)]) false
    0 0 0x80000005 0 (Cursor.mk 4 0 [(5, RObject.classRef ClassDesc.undefinedCls)])
    (RObject.classRef ClassDesc.undefinedCls)
    (by decide) (by decide) (by decide) (by decide) (by decide)

/-! ## Claim C5: unknown class name falls back to Undefined -/

/-- Evaluation of the Undefined reader at any position where its
6-byte start bracket is readable: it succeeds and its cursor advance
equals the expected byte count, so the end check always holds. -/
theorem Undefined_readinto_eval (s : Source) (c : Cursor) (ws : List Nat)
    (h : readBytes s c.index 6 = some ws) :
    Undefined_readinto s c =
      Except.ok (RObject.undef none (beN (ws.drop 4)),
        { c with index := c.index + (((beN (ws.take 4) &&& 0xBFFFFFFF : Nat) : Int) + 4) }) := by
  have hsplit := readBytes_split s c.index 4 2 ws h
  unfold Undefined_readinto
  rw [startcheck_eval s c (ws.take 4) (ws.drop 4) hsplit.1 hsplit.2]
  simp only [Cursor.skip]
  have he : _endcheck c.index
      { c with index := c.index + 6 + (((beN (ws.take 4) &&& 0xBFFFFFFF : Nat) : Int) + 4 - 6) }
      (((beN (ws.take 4) &&& 0xBFFFFFFF : Nat) : Int) + 4) = Except.ok () :=
    (endcheck_ok_iff _ _ _).2 (by simp only []; ring)
  rw [he]
  have harith : c.index + 6 + (((beN (ws.take 4) &&& 0xBFFFFFFF : Nat) : Int) + 4 - 6)
      = c.index + (((beN (ws.take 4) &&& 0xBFFFFFFF : Nat) : Int) + 4) := by ring
  rw [harith]

/-- C5: in the new-class arm of ReadObjectAny, when the NUL-terminated
class name is not a registry key, the object is read as Undefined,
whose reader skips the framed payload (advancing by the expected byte
count past the inner start) and satisfies the end check; the call
returns the placeholder, with the class name recorded, and raises no
error. -/
theorem readobjany_newclass_unknown_undefined
    (readcls : String → Source → Cursor → Context → Except RErr (RObject × Cursor))
    (s : Source) (ctx : Context) (c : Cursor)
    (vers : Nat) (start : Int) (bcnt : Nat) (c1 c2 : Cursor) (cnameB ws : List Nat)
    (hhead : roaHead s c = Except.ok (vers, start, kNewClassTag, bcnt, c1))
    (hcstr : Cursor.cstringRead s c1 = Except.ok (cnameB, c2))
    (hfind : ctx.classes.find? (fun p => p.1 == decodeAscii cnameB) = none)
    (hbytes : readBytes s c2.index 6 = some ws) :
    ∃ c' : Cursor,
      _readobjany readcls s ctx c false =
        Except.ok (some (RObject.undef (some (decodeAscii cnameB)) (beN (ws.drop 4))), c')
      ∧ c'.index = c2.index + (((beN (ws.take 4) &&& 0xBFFFFFFF : Nat) : Int) + 4) := by
  unfold _readobjany
  rw [hhead]
  simp only []
  rw [if_neg (by decide : ¬((kNewClassTag &&& kClassMask : Nat) = 0))]
  simp only [if_true]
  rw [hcstr]
  simp only [Context.getClass, hfind]
  by_cases hv : vers > 0
  · simp only [if_pos hv, Bool.false_eq_true, if_false, classRead]
    rw [Undefined_readinto_eval s
      (c2.refsInsert (start + (kMapOffset : Int)) (RObject.classRef ClassDesc.undefinedCls)) ws hbytes]
    simp only [setUndefClassname]
    exact ⟨_, rfl, rfl⟩
  · simp only [if_neg hv, Bool.false_eq_true, if_false, classRead]
    rw [Undefined_readinto_eval s
      (c2.refsInsert (c2.refsLen + 1) (RObject.classRef ClassDesc.undefinedCls)) ws hbytes]
    simp only [setUndefClassname]
    exact ⟨_, rfl, rfl⟩

/-- Witness for C5: a new-class tag naming the unregistered class Xx,
followed by a framed payload of count word 0x40000002 and version 7;
the decode yields the Undefined placeholder recording Xx and lands just
past the framed record at index 13. -/
theorem readobjany_newclass_unknown_undefined_w :
    ∃ c' : Cursor,
      _readobjany readclsNone [0xFF, 0xFF, 0xFF, 0xFF, 88, 120, 0, 0x40, 0, 0, 2, 0, 7] ctx0
          (Cursor.mk 0 0 []) false =
        Except.ok (some (RObject.undef (some (decodeAscii [88, 120])) 7), c')
      ∧ c'.index = 13 :=
  readobjany_newclass_unknown_undefined readclsNone
    [0xFF, 0xFF, 0xFF, 0xFF, 88, 120, 0, 0x40, 0, 0, 2, 0, 7] ctx0 (Cursor.mk 0 0 [])
    0 0 0 (Cursor.mk 4 0 []) (Cursor.mk 7 0 []) [88, 120] [0x40, 0, 0, 2, 0, 7]
    (by decide) (by decide) (by decide) (by decide)

/-! ## Claim C4: TKey payload preparation -/

/-- C4: for every TKey decode that succeeds, if fObjlen equals
fNbytes - fKeylen the prepared payload pair is the raw source with a
cursor at fSeekKey + fKeylen and origin fSeekKey; otherwise it is a
CompressedSource over the fNbytes - fKeylen compressed bytes at
fSeekKey + fKeylen with uncompressed length fObjlen, and a cursor at 0
with origin -fKeylen. -/
theorem tkey_payload (s : Source) (ctx : Context) (c c1 : Cursor) (k : TKeyRec)
    (h : TKey_readinto s ctx c = Except.ok (k, c1)) :
    (k.fObjlen = k.fNbytes - k.fKeylen →
      k.srcPayload = PayloadSource.raw s
      ∧ k.curPayload = Cursor.mk (k.fSeekKey + k.fKeylen) k.fSeekKey [])
    ∧ (k.fObjlen ≠ k.fNbytes - k.fKeylen →
      k.srcPayload = PayloadSource.compressedSource ctx.compression s
          (Cursor.mk (k.fSeekKey + k.fKeylen) 0 []) (k.fNbytes - k.fKeylen) k.fObjlen
      ∧ k.curPayload = Cursor.mk 0 (-k.fKeylen) []) := by
  unfold TKey_readinto at h
  cases e1 : Cursor.fieldI32 s c with
  | error err => rw [e1] at h; exact Except.noConfusion h
  | ok p1 =>
  rw [e1] at h; obtain ⟨fNbytes, ca⟩ := p1; simp only [] at h
  cases e2 : Cursor.fieldI16 s ca with
  | error err => rw [e2] at h; exact Except.noConfusion h
  | ok p2 =>
  rw [e2] at h; obtain ⟨fVersion, cb⟩ := p2; simp only [] at h
  cases e3 : Cursor.fieldI32 s cb with
  | error err => rw [e3] at h; exact Except.noConfusion h
  | ok p3 =>
  rw [e3] at h; obtain ⟨fObjlen, cc⟩ := p3; simp only [] at h
  cases e4 : Cursor.fieldU32 s cc with
  | error err => rw [e4] at h; exact Except.noConfusion h
  | ok p4 =>
  rw [e4] at h; obtain ⟨fDatime, cd⟩ := p4; simp only [] at h
  cases e5 : Cursor.fieldI16 s cd with
  | error err => rw [e5] at h; exact Except.noConfusion h
  | ok p5 =>
  rw [e5] at h; obtain ⟨fKeylen, ce⟩ := p5; simp only [] at h
  cases e6 : Cursor.fieldI16 s ce with
  | error err => rw [e6] at h; exact Except.noConfusion h
  | ok p6 =>
  rw [e6] at h; obtain ⟨fCycle, cf⟩ := p6; simp only [] at h
  cases e7 : TKey_seeks s fVersion cf with
  | error err => rw [e7] at h; exact Except.noConfusion h
  | ok p7 =>
  rw [e7] at h; obtain ⟨fSeekKey, fSeekPdir, cg⟩ := p7; simp only [] at h
  cases e8 : Cursor.stringRead s cg with
  | error err => rw [e8] at h; exact Except.noConfusion h
  | ok p8 =>
  rw [e8] at h; obtain ⟨fClassName, ch⟩ := p8; simp only [] at h
  cases e9 : Cursor.stringRead s ch with
  | error err => rw [e9] at h; exact Except.noConfusion h
  | ok p9 =>
  rw [e9] at h; obtain ⟨fName, ci⟩ := p9; simp only [] at h
  cases e10 : Cursor.stringRead s ci with
  | error err => rw [e10] at h; exact Except.noConfusion h
  | ok p10 =>
  rw [e10] at h; obtain ⟨fTitle, cj⟩ := p10; simp only [] at h
  injection h with hpair
  injection hpair with hk hc1
  subst hk
  constructor
  · intro heq
    have heq2 : fObjlen = fNbytes - fKeylen := heq
    constructor <;>
      simp only [if_neg (show ¬(fObjlen ≠ fNbytes - fKeylen) from by omega)]
  · intro hne
    have hne2 : fObjlen ≠ fNbytes - fKeylen := hne
    constructor <;> simp only [if_pos hne2]

/-- Concrete TKey bytes: fNbytes 100, fVersion 1, fObjlen 90, fDatime 0,
fKeylen 10, fCycle 1, small seeks 50 and 0, three empty strings. -/
def tkeyBytes : Source :=
  [0, 0, 0, 100, 0, 1, 0, 0, 0, 90, 0, 0, 0, 0, 0, 10, 0, 1,
   0, 0, 0, 50, 0, 0, 0, 0, 0, 0, 0]

/-- The TKey record tkeyBytes decodes to: 90 = 100 - 10, so the payload
is the raw source with a cursor at 60 and origin 50. -/
def tkeyEx : TKeyRec :=
  { fNbytes := 100, fVersion := 1, fObjlen := 90, fDatime := 0, fKeylen := 10,
    fCycle := 1, fSeekKey := 50, fSeekPdir := 0, fClassName := [], fName := [],
    fTitle := [], srcPayload := PayloadSource.raw tkeyBytes,
    curPayload := Cursor.mk 60 50 [] }

/-- Witness for C4: the concrete TKey decodes as tkeyEx and the theorem
yields the uncompressed payload pair. -/
theorem tkey_payload_w :
    TKey_readinto tkeyBytes ctx0 (Cursor.mk 0 0 []) = Except.ok (tkeyEx, Cursor.mk 29 0 [])
    ∧ tkeyEx.srcPayload = PayloadSource.raw tkeyBytes
    ∧ tkeyEx.curPayload = Cursor.mk (tkeyEx.fSeekKey + tkeyEx.fKeylen) tkeyEx.fSeekKey [] :=
  ⟨by decide,
   (tkey_payload tkeyBytes ctx0 (Cursor.mk 0 0 []) (Cursor.mk 29 0 []) tkeyEx
      (by decide)).1 (by decide)⟩

/-! ## Claim C8: the Bool fType remap -/

/-- C8: any successfully decoded TStreamerElement whose raw fType field
was 11 and whose decoded fTypeName is Bool_t or bool stores fType 18. -/
theorem tse_bool_remap (s : Source) (c c1 c2 : Cursor) (r : TSERaw) (elem : TStreamerElem)
    (hcore : TStreamerElement_core s c = Except.ok (r, c1))
    (htype : r.fType = 11)
    (hname : r.fTypeName = bstr "Bool_t" ∨ r.fTypeName = bstr "bool")
    (hok : TStreamerElement_readinto s c = Except.ok (elem, c2)) :
    elem.fType = 18 := by
  unfold TStreamerElement_readinto at hok
  rw [hcore] at hok
  simp only [] at hok
  rw [show bool11remap r.fType r.fTypeName = 18 from by
        unfold bool11remap; rw [if_pos ⟨htype, hname⟩]] at hok
  cases ex : TSE_xtail s r.version c1 with
  | error err => rw [ex] at hok; exact Except.noConfusion hok
  | ok p =>
  rw [ex] at hok; obtain ⟨xm, xx, xf, c3⟩ := p; simp only [] at hok
  cases ee : _endcheck r.start c3 r.cnt with
  | error err => rw [ee] at hok; exact Except.noConfusion hok
  | ok u =>
  rw [ee] at hok; simp only [] at hok
  injection hok with hpair
  injection hpair with he hc
  subst he
  rfl

/-- Concrete TStreamerElement bytes: an element frame of count word
0x4000003F and version 4, a name-title frame with an empty name and
title, fType 11, fSize 1, no array, a 5-element fMaxIndex of zeros and
the type name Bool_t. -/
def tseBytes : Source :=
  [0x40, 0, 0, 63, 0, 4,
   0x40, 0, 0, 14, 0, 1,
   0, 1, 0, 0, 0, 0, 0, 0, 0, 0,
   0, 0,
   0, 0, 0, 11, 0, 0, 0, 1, 0, 0, 0, 0, 0, 0, 0, 0,
   0, 0, 0, 0, 0, 0, 0, 0, 0, 0, 0, 0, 0, 0, 0, 0, 0, 0, 0, 0,
   6, 66, 111, 111, 108, 95, 116]

/-- The raw core decode of tseBytes: the raw fType is 11 and the type
name is Bool_t. -/
def tseRawEx : TSERaw :=
  { start := 0, cnt := 67, version := 4, fName := [], fTitle := [], fType := 11,
    fSize := 1, fArrayLength := 0, fArrayDim := 0, fMaxIndex := [0, 0, 0, 0, 0],
    fTypeName := bstr "Bool_t" }

/-- The element tseBytes decodes to: fType has been remapped to 18. -/
def tseEx : TStreamerElem :=
  { version := 4, fOffset := 0, fName := [], fTitle := [], fType := 18, fSize := 1,
    fArrayLength := 0, fArrayDim := 0, fMaxIndex := [0, 0, 0, 0, 0],
    fTypeName := bstr "Bool_t", fXmin := 0, fXmax := 0, fFactor := 0 }

/-- Witness for C8: the concrete element decodes with raw fType 11 and
type name Bool_t, and the stored fType is 18. -/
theorem tse_bool_remap_w :
    TStreamerElement_core tseBytes (Cursor.mk 0 0 []) = Except.ok (tseRawEx, Cursor.mk 67 0 [])
    ∧ TStreamerElement_readinto tseBytes (Cursor.mk 0 0 []) = Except.ok (tseEx, Cursor.mk 67 0 [])
    ∧ tseEx.fType = 18 :=
  ⟨by decide, by decide,
   tse_bool_remap tseBytes (Cursor.mk 0 0 []) (Cursor.mk 67 0 []) (Cursor.mk 67 0 [])
     tseRawEx tseEx (by decide) (by decide) (Or.inl (by decide)) (by decide)⟩

/-! ## Claim C3: the dependency sorter -/

/-- The names provided after emitting a run of streamers, newest
first. -/
def pushNames (e : List (TSInfo × List (List Nat))) (provided : List (List Nat)) :
    List (List Nat) :=
  e.foldl (fun pr it => it.1.fName :: pr) provided

theorem subsetOf_forall {deps provided : List (List Nat)}
    (h : subsetOf deps provided = true) : ∀ d ∈ deps, d ∈ provided := by
  intro d hd
  have := List.all_eq_true.mp h d hd
  simpa [List.contains] using this

theorem chainOK_append {provided : List (List Nat)}
    {e rest : List (TSInfo × List (List Nat))}
    (h1 : chainOK provided e) (h2 : chainOK (pushNames e provided) rest) :
    chainOK provided (e ++ rest) := by
  induction e generalizing provided with
  | nil => exact h2
  | cons p e ih =>
    obtain ⟨it, deps⟩ := p
    exact ⟨h1.1, ih h1.2 h2⟩

theorem topoPass_spec (provided : List (List Nat))
    (items : List (TSInfo × List (List Nat))) :
    chainOK provided (topoPass provided items).1
    ∧ (topoPass provided items).2.1 = pushNames (topoPass provided items).1 provided := by
  induction items generalizing provided with
  | nil => exact ⟨trivial, rfl⟩
  | cons p rest ih =>
    obtain ⟨it, deps⟩ := p
    by_cases hs : subsetOf deps provided = true
    · simp only [topoPass, if_pos hs]
      exact ⟨⟨subsetOf_forall hs, (ih (it.fName :: provided)).1⟩, (ih (it.fName :: provided)).2⟩
    · simp only [topoPass, if_neg hs]
      exact ⟨(ih provided).1, (ih provided).2⟩

theorem topoSortN_ok_chain (fuel : Nat) (provided : List (List Nat))
    (items pairs : List (TSInfo × List (List Nat)))
    (h : topoSortN fuel provided items = Except.ok pairs) :
    chainOK provided pairs := by
  induction fuel generalizing provided items pairs with
  | zero =>
    unfold topoSortN at h
    by_cases hi : items.isEmpty
    · rw [if_pos hi] at h
      injection h with h'
      subst h'
      trivial
    · rw [if_neg hi] at h
      exact Except.noConfusion h
  | succ n ih =>
    unfold topoSortN at h
    by_cases hi : items.isEmpty
    · rw [if_pos hi] at h
      injection h with h'
      subst h'
      trivial
    · rw [if_neg hi] at h
      simp only [] at h
      by_cases he : (topoPass provided items).1.isEmpty
      · rw [if_pos he] at h
        exact Except.noConfusion h
      · rw [if_neg he] at h
        cases er : topoSortN n (topoPass provided items).2.1 (topoPass provided items).2.2 with
        | error e => rw [er] at h; exact Except.noConfusion h
        | ok rest =>
          rw [er] at h
          injection h with h'
          subst h'
          have hspec := topoPass_spec provided items
          exact chainOK_append hspec.1 (hspec.2 ▸ ih _ _ _ er)

/-- One pass of the sorter viewed as a state transformer on the
provided set and the remaining items. -/
def topoStep (st : List (List Nat) × List (TSInfo × List (List Nat))) :
    List (List Nat) × List (TSInfo × List (List Nat)) :=
  ((topoPass st.1 st.2).2.1, (topoPass st.1 st.2).2.2)

/-- k passes of the sorter from a state. -/
def topoIter : Nat → List (List Nat) × List (TSInfo × List (List Nat)) →
    List (List Nat) × List (TSInfo × List (List Nat))
  | 0, st => st
  | k + 1, st => topoIter k (topoStep st)

theorem topoPass_length (provided : List (List Nat))
    (items : List (TSInfo × List (List Nat))) :
    (topoPass provided items).1.length + (topoPass provided items).2.2.length
      = items.length := by
  induction items generalizing provided with
  | nil => rfl
  | cons p rest ih =>
    obtain ⟨it, deps⟩ := p
    by_cases hs : subsetOf deps provided = true
    · simp only [topoPass, if_pos hs, List.length_cons]
      have := ih (it.fName :: provided)
      omega
    · simp only [topoPass, if_neg hs, List.length_cons]
      have := ih provided
      omega

theorem topoPass_stuck (provided : List (List Nat))
    (items : List (TSInfo × List (List Nat)))
    (h : (topoPass provided items).1 = []) :
    (topoPass provided items).2.1 = provided ∧ (topoPass provided items).2.2 = items := by
  induction items generalizing provided with
  | nil => exact ⟨rfl, rfl⟩
  | cons p rest ih =>
    obtain ⟨it, deps⟩ := p
    by_cases hs : subsetOf deps provided = true
    · simp only [topoPass, if_pos hs] at h
      exact absurd h (by simp)
    · simp only [topoPass, if_neg hs] at h ⊢
      have := ih provided h
      exact ⟨this.1, by rw [this.2]⟩

/-- Any pass that emits nothing on nonempty remaining items makes
topoSortN fail at once with the full dependency sets, whatever fuel is
left. -/
theorem topoSortN_stuck (fuel : Nat) (provided : List (List Nat))
    (items : List (TSInfo × List (List Nat))) (hne : items ≠ [])
    (hstuck : (topoPass provided items).1 = []) :
    topoSortN fuel provided items =
      Except.error (items.map (fun x => (x.1.fName, x.2))) := by
  unfold topoSortN
  rw [if_neg (by rw [List.isEmpty_iff]; exact hne)]
  cases fuel with
  | zero => rfl
  | succ n =>
    simp only []
    rw [if_pos (by rw [List.isEmpty_iff]; exact hstuck)]

theorem topoStep_stuck_fixed (st : List (List Nat) × List (TSInfo × List (List Nat)))
    (h : (topoPass st.1 st.2).1 = []) : topoStep st = st := by
  have hp := topoPass_stuck st.1 st.2 h
  unfold topoStep
  rw [hp.1, hp.2]

theorem topoIter_fixed (k : Nat) (st : List (List Nat) × List (TSInfo × List (List Nat)))
    (h : topoStep st = st) : topoIter k st = st := by
  induction k with
  | zero => rfl
  | succ n ih =>
    show topoIter n (topoStep st) = st
    rw [h, ih]

/-- Whenever the pass iteration from some state reaches remaining items
that are nonempty and whose pass emits nothing, topoSortN with enough
fuel fails with the full dependency sets of those remaining items. -/
theorem topoSortN_iter_stuck (k : Nat) :
    ∀ (fuel : Nat) (provided : List (List Nat)) (items : List (TSInfo × List (List Nat))),
    items.length ≤ fuel →
    (topoIter k (provided, items)).2 ≠ [] →
    (topoPass (topoIter k (provided, items)).1 (topoIter k (provided, items)).2).1 = [] →
    topoSortN fuel provided items =
      Except.error ((topoIter k (provided, items)).2.map (fun x => (x.1.fName, x.2))) := by
  induction k with
  | zero =>
    intro fuel provided items _hfuel hne hstuck
    exact topoSortN_stuck fuel provided items hne hstuck
  | succ n ih =>
    intro fuel provided items hfuel hne hstuck
    by_cases hfirst : (topoPass provided items).1 = []
    · have hfix : topoStep (provided, items) = (provided, items) :=
        topoStep_stuck_fixed _ hfirst
      have hiter : topoIter (n + 1) (provided, items) = (provided, items) := by
        show topoIter n (topoStep (provided, items)) = (provided, items)
        rw [hfix, topoIter_fixed n _ hfix]
      rw [hiter] at hne hstuck ⊢
      exact topoSortN_stuck fuel provided items hne hstuck
    · have hitems : items ≠ [] := by
        intro h0
        subst h0
        exact hfirst rfl
      cases fuel with
      | zero =>
        exfalso
        exact hitems (List.length_eq_zero.mp (Nat.le_zero.mp hfuel))
      | succ m =>
        have hlen := topoPass_length provided items
        have hrem : (topoPass provided items).2.2.length ≤ m := by
          have h1 : 1 ≤ (topoPass provided items).1.length := by
            cases hp : (topoPass provided items).1 with
            | nil => exact absurd hp hfirst
            | cons a l => simp
          omega
        have ihr := ih m (topoPass provided items).2.1 (topoPass provided items).2.2
          hrem hne hstuck
        unfold topoSortN
        rw [if_neg (by rw [List.isEmpty_iff]; exact hitems)]
        simp only []
        rw [if_neg (by rw [List.isEmpty_iff]; exact hfirst)]
        rw [ihr]
        rfl

/-- C3, counterexample: on the catalog where A depends on TObject and
B, and B depends on A, the failed pass reports each remaining streamer
with its full dependency set: TObject is listed for A although it is in
the seed set and thus met, so the error does not list only unmet
dependencies. -/
theorem topological_sort_unmet_cex :
    topological_sort [(TSInfo.mk (bstr "A"), [bstr "TObject", bstr "B"]),
                      (TSInfo.mk (bstr "B"), [bstr "A"])] =
      Except.error [(bstr "A", [bstr "TObject", bstr "B"]), (bstr "B", [bstr "A"])]
    ∧ topological_sort [(TSInfo.mk (bstr "A"), [bstr "TObject", bstr "B"]),
                        (TSInfo.mk (bstr "B"), [bstr "A"])] ≠
      Except.error ([(TSInfo.mk (bstr "A"), [bstr "TObject", bstr "B"]),
                     (TSInfo.mk (bstr "B"), [bstr "A"])].map
        (fun x => (x.1.fName, x.2.filter (fun d => !(providedInit.contains d)))))
    ∧ bstr "TObject" ∈ providedInit := by decide

/-- C3 as amended: every successful sort is dependency sound, each
emitted streamer depending only on the seed set and on the names of
streamers emitted before it; and whenever a full pass emits nothing on
nonempty remaining items, whether that is the first pass from the seed
set or any later pass reached by iterating passes, the sort fails with
an error listing each remaining streamer with its full dependency set,
met dependencies included. -/
theorem topological_sort_amended :
    (∀ (items pairs : List (TSInfo × List (List Nat))),
        topoSortN items.length providedInit items = Except.ok pairs →
        topological_sort items = Except.ok (pairs.map Prod.fst)
        ∧ chainOK providedInit pairs)
    ∧ (∀ items : List (TSInfo × List (List Nat)),
        items ≠ [] → (topoPass providedInit items).1 = [] →
        topological_sort items = Except.error (items.map (fun x => (x.1.fName, x.2))))
    ∧ (∀ (items : List (TSInfo × List (List Nat))) (k : Nat),
        (topoIter k (providedInit, items)).2 ≠ [] →
        (topoPass (topoIter k (providedInit, items)).1
            (topoIter k (providedInit, items)).2).1 = [] →
        topological_sort items =
          Except.error
            ((topoIter k (providedInit, items)).2.map (fun x => (x.1.fName, x.2)))) := by
  refine ⟨?_, ?_, ?_⟩
  · intro items pairs h
    constructor
    · unfold topological_sort
      rw [h]
      rfl
    · exact topoSortN_ok_chain items.length providedInit items pairs h
  · intro items hne hempty
    unfold topological_sort
    rw [topoSortN_stuck items.length providedInit items hne hempty]
    rfl
  · intro items k hne hstuck
    unfold topological_sort
    rw [topoSortN_iter_stuck k items.length providedInit items (le_refl _) hne hstuck]
    rfl

/-- Witness for C3: the two-streamer catalog where B depends on A and A
on nothing sorts to A then B with a sound dependency chain; the
two-streamer cycle fails at the first pass citing both streamers with
their dependency sets; and the catalog where C depends on nothing, A on
B and C, and B on A makes progress on the first pass (emitting C) and
stalls on the second, failing with the full dependency sets of the two
remaining streamers. -/
theorem topological_sort_amended_w :
    (topological_sort [(TSInfo.mk (bstr "B"), [bstr "A"]), (TSInfo.mk (bstr "A"), [])] =
        Except.ok [TSInfo.mk (bstr "A"), TSInfo.mk (bstr "B")]
     ∧ chainOK providedInit [(TSInfo.mk (bstr "A"), []), (TSInfo.mk (bstr "B"), [bstr "A"])])
    ∧ topological_sort [(TSInfo.mk (bstr "A"), [bstr "B"]), (TSInfo.mk (bstr "B"), [bstr "A"])] =
        Except.error [(bstr "A", [bstr "B"]), (bstr "B", [bstr "A"])]
    ∧ topological_sort [(TSInfo.mk (bstr "C"), []),
                        (TSInfo.mk (bstr "A"), [bstr "B", bstr "C"]),
                        (TSInfo.mk (bstr "B"), [bstr "A"])] =
        Except.error [(bstr "A", [bstr "B", bstr "C"]), (bstr "B", [bstr "A"])] :=
  ⟨topological_sort_amended.1
     [(TSInfo.mk (bstr "B"), [bstr "A"]), (TSInfo.mk (bstr "A"), [])]
     [(TSInfo.mk (bstr "A"), []), (TSInfo.mk (bstr "B"), [bstr "A"])] (by decide),
   topological_sort_amended.2.1
     [(TSInfo.mk (bstr "A"), [bstr "B"]), (TSInfo.mk (bstr "B"), [bstr "A"])]
     (by decide) (by decide),
   topological_sort_amended.2.2
     [(TSInfo.mk (bstr "C"), []),
      (TSInfo.mk (bstr "A"), [bstr "B", bstr "C"]),
      (TSInfo.mk (bstr "B"), [bstr "A"])] 1 (by decide) (by decide)⟩

/-! ## Claim C6: directory lookup -/

theorem natDecAux_digits (fuel n : Nat) : ∀ d ∈ natDecAux fuel n, 48 ≤ d ∧ d ≤ 57 := by
  induction fuel generalizing n with
  | zero =>
    intro d hd
    simp only [natDecAux, List.mem_singleton] at hd
    subst hd
    omega
  | succ fuel ih =>
    intro d hd
    unfold natDecAux at hd
    by_cases hn : n < 10
    · rw [if_pos hn] at hd
      simp only [List.mem_singleton] at hd
      subst hd
      omega
    · rw [if_neg hn] at hd
      rcases List.mem_append.mp hd with h1 | h2
      · exact ih (n / 10) d h1
      · simp only [List.mem_singleton] at h2
        subst h2
        omega

theorem natDecAux_ne_nil (fuel n : Nat) : natDecAux fuel n ≠ [] := by
  cases fuel with
  | zero => simp [natDecAux]
  | succ fuel =>
    unfold natDecAux
    by_cases hn : n < 10
    · simp [if_pos hn]
    · simp [if_neg hn]

theorem digitsVal_append (xs : List Nat) (d : Nat) :
    digitsVal (xs ++ [d]) = digitsVal xs * 10 + (d - 48) := by
  unfold digitsVal
  rw [List.foldl_append]
  rfl

theorem digitsVal_natDecAux (fuel n : Nat) (h : n ≤ fuel) :
    digitsVal (natDecAux fuel n) = n := by
  induction fuel generalizing n with
  | zero =>
    have : n = 0 := by omega
    subst this
    rfl
  | succ fuel ih =>
    unfold natDecAux
    by_cases hn : n < 10
    · rw [if_pos hn]
      unfold digitsVal
      simp only [List.foldl_cons, List.foldl_nil]
      omega
    · rw [if_neg hn]
      rw [digitsVal_append, ih (n / 10) (by omega)]
      omega

theorem parseNatDigits_natDecimal (n : Nat) : parseNatDigits (natDecimal n) = some n := by
  have hall : (natDecimal n).all (fun d => decide (48 ≤ d ∧ d ≤ 57)) = true := by
    rw [List.all_eq_true]
    intro d hd
    have := natDecAux_digits n n d hd
    simp only [decide_eq_true_eq]
    omega
  unfold parseNatDigits
  rw [if_pos ⟨natDecAux_ne_nil n n, hall⟩]
  exact congrArg some (digitsVal_natDecAux n n (le_refl n))

theorem pyInt_natDecimal (n : Nat) : pyInt (natDecimal n) = some (n : Int) := by
  have hp := parseNatDigits_natDecimal n
  cases hnd : natDecimal n with
  | nil => exact absurd hnd (natDecAux_ne_nil n n)
  | cons b bs =>
    have hb : 48 ≤ b ∧ b ≤ 57 := by
      apply natDecAux_digits n n
      rw [show natDecAux n n = natDecimal n from rfl, hnd]
      exact List.mem_cons_self b bs
    rw [hnd] at hp
    unfold pyInt
    simp only []
    rw [if_neg (by omega)]
    rw [hp]

/-- The Python int of the decimal form of an integer is that integer. -/
theorem pyInt_intDecimal (i : Int) : pyInt (intDecimal i) = some i := by
  unfold intDecimal
  by_cases hi : i < 0
  · rw [if_pos hi]
    unfold pyInt
    simp only [if_true]
    rw [parseNatDigits_natDecimal i.natAbs]
    simp only []
    have hcast : -((i.natAbs : Int)) = i := by omega
    rw [hcast]
  · rw [if_neg hi]
    rw [pyInt_natDecimal]
    congr 1
    omega

theorem intDecimal_chars (i : Int) : ∀ d ∈ intDecimal i, d = 45 ∨ (48 ≤ d ∧ d ≤ 57) := by
  intro d hd
  unfold intDecimal at hd
  by_cases hi : i < 0
  · rw [if_pos hi] at hd
    rcases List.mem_cons.mp hd with h | h
    · exact Or.inl h
    · exact Or.inr (natDecAux_digits _ _ d h)
  · rw [if_neg hi] at hd
    exact Or.inr (natDecAux_digits _ _ d hd)

theorem rindexAux_none (sep : Nat) (l : List Nat) (h : sep ∉ l) :
    rindexAux sep l = none := by
  induction l with
  | nil => rfl
  | cons b rest ih =>
    unfold rindexAux
    rw [ih (fun hm => h (List.mem_cons_of_mem b hm))]
    rw [if_neg (fun hb => h (List.mem_cons.mpr (Or.inl hb.symm)))]

theorem rindexAux_last (sep : Nat) (xs suffix : List Nat) (h : sep ∉ suffix) :
    rindexAux sep (xs ++ sep :: suffix) = some xs.length := by
  induction xs with
  | nil =>
    simp only [List.nil_append]
    unfold rindexAux
    rw [rindexAux_none sep suffix h]
    rw [if_pos rfl]
    rfl
  | cons x xs ih =>
    simp only [List.cons_append]
    unfold rindexAux
    rw [ih]
    simp [List.length_cons]

theorem take_append_len (xs ys : List Nat) : (xs ++ ys).take xs.length = xs := by
  induction xs with
  | nil => rfl
  | cons x xs ih => simp only [List.cons_append, List.length_cons, List.take_succ_cons, ih]

theorem drop_append_len1 (xs ys : List Nat) (y : Nat) :
    (xs ++ y :: ys).drop (xs.length + 1) = ys := by
  induction xs with
  | nil => rfl
  | cons x xs ih =>
    simp only [List.cons_append, List.length_cons, List.drop_succ_cons]
    exact ih

theorem rscan_cons (nm : List Nat) (cyc : Option Int) (nm' : List Nat) (cy' : Int)
    (cls' : List Nat) (v rest : RVal) :
    rscan nm cyc (RVal.dcons nm' cy' cls' v rest) =
      if nm' = nm ∧ (cyc = none ∨ cyc = some cy') then Except.ok v
      else rscan nm cyc rest := rfl

theorem rscan_find (d : RVal) (nm : List Nat) (cyc : Option Int) :
    rscan nm cyc d =
      match (dirToList d).find?
          (fun k => decide (k.1 = nm ∧ (cyc = none ∨ cyc = some k.2.1))) with
      | some k => Except.ok k.2.2.2
      | none => Except.error (RErr.keyError "not found") := by
  induction d with
  | leafV k => rfl
  | dnil => rfl
  | dcons nm' cy' cls' v rest ihv ihrest =>
    by_cases hc : (nm' = nm ∧ (cyc = none ∨ cyc = some cy'))
    · rw [rscan_cons, if_pos hc]
      rw [show dirToList (RVal.dcons nm' cy' cls' v rest)
            = (nm', cy', cls', v) :: dirToList rest from rfl]
      rw [List.find?_cons_of_pos _ (by simpa using hc)]
    · rw [rscan_cons, if_neg hc]
      rw [show dirToList (RVal.dcons nm' cy' cls' v rest)
            = (nm', cy', cls', v) :: dirToList rest from rfl]
      rw [List.find?_cons_of_neg _ (by simpa using hc)]
      exact ihrest

theorem rscan_mem_nodup (d : RVal) (nm : List Nat) (cy : Int) (cls : List Nat) (v : RVal)
    (hnod : ((dirToList d).map (fun k => (k.1, k.2.1))).Nodup)
    (hmem : (nm, cy, cls, v) ∈ dirToList d) :
    rscan nm (some cy) d = Except.ok v := by
  induction d with
  | leafV k => simp [dirToList] at hmem
  | dnil => simp [dirToList] at hmem
  | dcons nm' cy' cls' v' rest ihv ihrest =>
    rw [show dirToList (RVal.dcons nm' cy' cls' v' rest)
          = (nm', cy', cls', v') :: dirToList rest from rfl] at hnod hmem
    simp only [List.map_cons, List.nodup_cons] at hnod
    rcases List.mem_cons.mp hmem with heq | htail
    · simp only [Prod.mk.injEq] at heq
      obtain ⟨e1, e2, e3, e4⟩ := heq
      subst e1; subst e2; subst e4
      rw [rscan_cons, if_pos ⟨rfl, Or.inr rfl⟩]
    · by_cases hc : (nm' = nm ∧ ((some cy : Option Int) = none ∨ some cy = some cy'))
      · exfalso
        rcases hc.2 with h | h
        · exact Option.noConfusion h
        · have hcy : cy = cy' := Option.some.inj h
          apply hnod.1
          rw [hc.1, ← hcy]
          exact List.mem_map_of_mem _ htail
      · rw [rscan_cons, if_neg hc]
        exact ihrest hnod.2 htail

theorem rget_cycle_mem (d : RVal) (nm : List Nat) (cy : Int) (cls : List Nat) (v : RVal)
    (hnod : ((dirToList d).map (fun k => (k.1, k.2.1))).Nodup)
    (hmem : (nm, cy, cls, v) ∈ dirToList d)
    (hslash : (47 : Nat) ∉ nm) :
    rget d nm (some cy) = Except.ok v := by
  cases d with
  | leafV k => simp [dirToList] at hmem
  | dnil => simp [dirToList] at hmem
  | dcons nm' cy' cls' v' rest =>
    unfold rget
    rw [if_neg hslash]
    unfold rget1
    simp only []
    rw [if_neg (by simp : ¬ (some cy : Option Int) = none)]
    exact rscan_mem_nodup _ nm cy cls v hnod hmem

theorem rget_withcycle_mem (d : RVal) (nm : List Nat) (cy : Int) (cls : List Nat) (v : RVal)
    (hnod : ((dirToList d).map (fun k => (k.1, k.2.1))).Nodup)
    (hmem : (nm, cy, cls, v) ∈ dirToList d)
    (hslash : (47 : Nat) ∉ nm) :
    rget d (nm ++ 59 :: intDecimal cy) none = Except.ok v := by
  have h59 : (59 : Nat) ∉ intDecimal cy := by
    intro hm
    rcases intDecimal_chars cy 59 hm with h | h
    · exact absurd h (by decide)
    · omega
  have h47 : (47 : Nat) ∉ nm ++ 59 :: intDecimal cy := by
    intro hmem47
    rcases List.mem_append.mp hmem47 with h | h
    · exact hslash h
    · rcases List.mem_cons.mp h with h | h
      · exact absurd h (by decide)
      · rcases intDecimal_chars cy 47 h with h45 | hdig
        · exact absurd h45 (by decide)
        · omega
  cases d with
  | leafV k => simp [dirToList] at hmem
  | dnil => simp [dirToList] at hmem
  | dcons nm' cy' cls' v' rest =>
    unfold rget
    rw [if_neg h47]
    unfold rget1
    simp only [if_true]
    rw [rindexAux_last 59 nm (intDecimal cy) h59]
    simp only []
    rw [drop_append_len1, pyInt_intDecimal]
    simp only []
    rw [take_append_len]
    exact rscan_mem_nodup _ nm cy cls v hnod hmem

/-- C6, counterexample: a directory with the single key named a/b of
cycle 1.  Because get splits names on slashes before scanning, looking
that key up by its own name and cycle fails with not found instead of
returning its value. -/
theorem dir_get_slash_cex :
    rget (RVal.dcons (bstr "a/b") 1 (bstr "X") (RVal.leafV 7) RVal.dnil)
        (bstr "a/b") (some 1) = Except.error (RErr.keyError "not found")
    ∧ rget (RVal.dcons (bstr "a/b") 1 (bstr "X") (RVal.leafV 7) RVal.dnil)
        (bstr "a/b") (some 1) ≠ Except.ok (RVal.leafV 7) := by decide

/-- C6 as amended: the key scan returns the value of the first key in
insertion order whose fName equals the name and whose fCycle matches,
any cycle matching when none is requested, and fails with not found
otherwise; and for every directory with pairwise-distinct name-cycle
pairs and every key whose fName holds no slash byte, get with the
explicit cycle returns that key value, and so does get of the name, a
semicolon and the decimal cycle. -/
theorem dir_get_amended :
    (∀ (d : RVal) (nm : List Nat) (cyc : Option Int),
        rscan nm cyc d =
          match (dirToList d).find?
              (fun k => decide (k.1 = nm ∧ (cyc = none ∨ cyc = some k.2.1))) with
          | some k => Except.ok k.2.2.2
          | none => Except.error (RErr.keyError "not found"))
    ∧ (∀ (d : RVal) (nm : List Nat) (cy : Int) (cls : List Nat) (v : RVal),
        ((dirToList d).map (fun k => (k.1, k.2.1))).Nodup →
        (nm, cy, cls, v) ∈ dirToList d → (47 : Nat) ∉ nm →
        rget d nm (some cy) = Except.ok v
        ∧ rget d (nm ++ 59 :: intDecimal cy) none = Except.ok v) :=
  ⟨rscan_find,
   fun d nm cy cls v hnod hmem hslash =>
     ⟨rget_cycle_mem d nm cy cls v hnod hmem hslash,
      rget_withcycle_mem d nm cy cls v hnod hmem hslash⟩⟩

/-- A concrete directory with two keys of the same name h1 and cycles 1
and 2, as in scenario S6 of the spec. -/
def dirEx : RVal :=
  RVal.dcons (bstr "h1") 1 (bstr "TH1") (RVal.leafV 3)
    (RVal.dcons (bstr "h1") 2 (bstr "TH1") (RVal.leafV 4) RVal.dnil)

/-- Witness for C6: on the concrete directory, get of h1 with cycle 2
and get of the byte string h1 semicolon 2 both return the second value,
and the bare scan with no cycle returns the first value found. -/
theorem dir_get_amended_w :
    rget dirEx (bstr "h1") (some 2) = Except.ok (RVal.leafV 4)
    ∧ rget dirEx (bstr "h1" ++ 59 :: intDecimal 2) none = Except.ok (RVal.leafV 4)
    ∧ rscan (bstr "h1") none dirEx = Except.ok (RVal.leafV 3) :=
  ⟨(dir_get_amended.2 dirEx (bstr "h1") 2 (bstr "TH1") (RVal.leafV 4)
      (by decide) (by decide) (by decide)).1,
   (dir_get_amended.2 dirEx (bstr "h1") 2 (bstr "TH1") (RVal.leafV 4)
      (by decide) (by decide) (by decide)).2,
   (dir_get_amended.1 dirEx (bstr "h1") none).trans (by decide)⟩

/-! ## Claim C9: recursive iteration descends into filtered directories -/

/-- C9: for every directory, every filter pair and every key of class
TDirectory, recursive keys, values, items and classes all contain the
matching contents of that subdirectory, with paths joined by a slash,
whatever the filters say about the subdirectory key itself; a filter
suppresses only the entry of the directory, never the recursion. -/
theorem dir_iter_descends (fn fc : List Nat → Bool) (d : RVal)
    (nm : List Nat) (cy : Int) (v : RVal)
    (hmem : (nm, cy, bstr "TDirectory", v) ∈ dirToList d) :
    (∀ n, n ∈ dirKeys true fn fc v →
        withcycle nm cy ++ 47 :: n ∈ dirKeys true fn fc d)
    ∧ (∀ x, x ∈ dirValues true fn fc v → x ∈ dirValues true fn fc d)
    ∧ (∀ p, p ∈ dirItems true fn fc v →
        (withcycle nm cy ++ 47 :: p.1, p.2) ∈ dirItems true fn fc d)
    ∧ (∀ p, p ∈ dirClasses true fn fc v →
        (withcycle nm cy ++ 47 :: p.1, p.2) ∈ dirClasses true fn fc d) := by
  induction d with
  | leafV k => simp [dirToList] at hmem
  | dnil => simp [dirToList] at hmem
  | dcons nm' cy' cls' v' rest ihv ihrest =>
    rw [show dirToList (RVal.dcons nm' cy' cls' v' rest)
          = (nm', cy', cls', v') :: dirToList rest from rfl] at hmem
    rcases List.mem_cons.mp hmem with heq | htail
    · simp only [Prod.mk.injEq] at heq
      obtain ⟨e1, e2, e3, e4⟩ := heq
      subst e1; subst e2; subst e4
      rw [← e3]
      refine ⟨fun n hn => ?_, fun x hx => ?_, fun p hp => ?_, fun p hp => ?_⟩
      · rw [dirKeys]
        apply List.mem_append_left
        apply List.mem_append_right
        rw [if_pos (by simp)]
        exact List.mem_map_of_mem _ hn
      · rw [dirValues]
        apply List.mem_append_left
        apply List.mem_append_right
        rw [if_pos (by simp)]
        exact hx
      · rw [dirItems]
        apply List.mem_append_left
        apply List.mem_append_right
        rw [if_pos (by simp)]
        exact List.mem_map_of_mem _ hp
      · rw [dirClasses]
        apply List.mem_append_left
        apply List.mem_append_right
        rw [if_pos (by simp)]
        exact List.mem_map_of_mem _ hp
    · have ih := ihrest htail
      refine ⟨fun n hn => ?_, fun x hx => ?_, fun p hp => ?_, fun p hp => ?_⟩
      · rw [dirKeys]
        apply List.mem_append_right
        exact ih.1 n hn
      · rw [dirValues]
        apply List.mem_append_right
        exact ih.2.1 x hx
      · rw [dirItems]
        apply List.mem_append_right
        exact ih.2.2.1 p hp
      · rw [dirClasses]
        apply List.mem_append_right
        exact ih.2.2.2 p hp

/-- A subdirectory with one histogram key. -/
def subEx : RVal := RVal.dcons (bstr "h") 1 (bstr "TH1") (RVal.leafV 0) RVal.dnil

/-- A directory whose only key is the subdirectory sub of class
TDirectory. -/
def dirEx9 : RVal := RVal.dcons (bstr "sub") 1 (bstr "TDirectory") subEx RVal.dnil

/-- A name filter that excludes the subdirectory key itself. -/
def fnEx : List Nat → Bool := fun nmx => !(nmx == bstr "sub")

/-- Witness for C9: even though the filter rejects the name sub, the
recursive keys listing still contains the descendant path sub;1/h;1. -/
theorem dir_iter_descends_w :
    withcycle (bstr "sub") 1 ++ 47 :: withcycle (bstr "h") 1 ∈
      dirKeys true fnEx (fun _ => true) dirEx9
    ∧ fnEx (bstr "sub") = false :=
  ⟨(dir_iter_descends fnEx (fun _ => true) dirEx9 (bstr "sub") 1 subEx
      (by decide)).1 (withcycle (bstr "h") 1) (by decide),
   by decide⟩
